import Mathlib

/-!
Verification of the orchestration contract of `src/backend/ocr_processor.py`
(a command-line wrapper around the EasyOCR engine).

The OCR engine itself is external; it is modelled as an oracle
`Engine B : List String → String → Except String (List (Detection B))`
mapping the language list and image path either to an ordered sequence of
detections or to the message string of a raised exception.  Python floats are
modelled as rationals, `round(x, n)` as round-half-to-even on rationals,
`str.strip()` as dropping whitespace from both ends, `str.split(',')` as a
comma split keeping empty pieces, and `' '.join` as interleaving a single
space.  Wall-clock elapsed time is an input parameter of the model.
-/

namespace OcrProcessor

/-- One text region returned by the engine: `readtext` yields tuples
`(bbox, text, confidence)`.  The bounding box is opaque to the script,
so its type is a parameter. -/
structure Detection (B : Type) where
  bbox : B
  text : String
  confidence : ℚ
deriving DecidableEq

/-- Python's `round` on a value taken to an integer: round half to even. -/
def roundHalfEven (x : ℚ) : ℤ :=
  if x - (⌊x⌋ : ℚ) < 1/2 then ⌊x⌋
  else if 1/2 < x - (⌊x⌋ : ℚ) then ⌊x⌋ + 1
  else if ⌊x⌋ % 2 = 0 then ⌊x⌋ else ⌊x⌋ + 1

/-- Python's `round(x, n)`: round to `n` decimal places, ties to even. -/
def pyRound (x : ℚ) (n : ℕ) : ℚ :=
  (roundHalfEven (x * 10 ^ n) : ℚ) / 10 ^ n

/-- Python's `str.strip()`: drop whitespace from both ends. -/
def pyStrip (s : String) : String :=
  String.mk (((s.data.dropWhile Char.isWhitespace).reverse.dropWhile
    Char.isWhitespace).reverse)

/-- Python's `sep.join(xs)`: concatenate with `sep` between elements. -/
def joinSep (sep : String) : List String → String
  | [] => ""
  | [x] => x
  | x :: y :: rest => x ++ sep ++ joinSep sep (y :: rest)

/-- Comma split of a character list, keeping empty pieces, as Python's
`str.split(',')` does.  Always returns at least one piece. -/
def splitOnComma : List Char → List (List Char)
  | [] => [[]]
  | c :: rest =>
    if c = ',' then [] :: splitOnComma rest
    else (c :: (splitOnComma rest).headD []) :: (splitOnComma rest).tail

/-- `languages.split(',')` from the source: the language list handed to the
engine, with no validation or filtering. -/
def langList (languages : String) : List String :=
  (splitOnComma languages.data).map fun cs => String.mk cs

/-- The success-shaped result dictionary built by `process_image_ocr`. -/
structure SuccessRecord where
  text_extracted : String
  individual_texts : List String
  confidence_scores : List ℚ
  processing_time : ℚ
  total_detections : ℕ
deriving DecidableEq

/-- The failure-shaped result dictionary built in the `except` branch. -/
structure FailureRecord where
  error : String
  text_extracted : String
  confidence_scores : List ℚ
  processing_time : ℚ
deriving DecidableEq

/-- The JSON-serializable record `process_image_ocr` returns. -/
inductive OutputRecord
  | success (r : SuccessRecord)
  | failure (r : FailureRecord)
deriving DecidableEq

/-- The `processing_time` entry, present in both shapes. -/
def OutputRecord.processing_time : OutputRecord → ℚ
  | .success r => r.processing_time
  | .failure r => r.processing_time

/-- The OCR engine as seen by the script: `easyocr.Reader(lang_list, gpu=False)`
followed by `reader.readtext(image_path)`, collapsed into one oracle from the
language list and image path to either the detections or the message of the
exception raised during initialization, invocation, or image access. -/
def Engine (B : Type) : Type :=
  (List String → String → Except String (List (Detection B)))

/-- `process_image_ocr(image_path, languages)`: split the languages, run the
engine, trim each text, round each confidence to 3 decimals, round the elapsed
time to 2 decimals, join the trimmed texts with single spaces; any exception
is caught and turned into the failure-shaped record with the exception's
message. -/
def process_image_ocr {B : Type} (engine : Engine B) (elapsed : ℚ)
    (image_path languages : String) : OutputRecord :=
  let lang_list := langList languages
  match engine lang_list image_path with
  | .ok results =>
    let extracted_texts := results.map fun d => pyStrip d.text
    let confidence_scores := results.map fun d => pyRound d.confidence 3
    let processing_time := pyRound elapsed 2
    let full_text := joinSep " " extracted_texts
    .success ⟨full_text, extracted_texts, confidence_scores,
      processing_time, results.length⟩
  | .error e =>
    .failure ⟨e, "", [], 0⟩

/-- The one JSON value `main` prints as its structured result. -/
inductive Emitted
  | usage (err : String)
  | record (r : OutputRecord)
deriving DecidableEq

/-- The usage-error message emitted when arguments are missing. -/
def usageMessage : String :=
  "Missing arguments. Usage: python ocr_processor.py <image_path> <languages>"

/-- `main()`: with fewer than two positional arguments (`len(sys.argv) < 3`)
emit the usage-error JSON and exit 1; otherwise run `process_image_ocr` on
`sys.argv[1]` and `sys.argv[2]` and emit its record, exiting 0.  The value is
the emitted JSON record paired with the process exit status. -/
def main {B : Type} (engine : Engine B) (elapsed : ℚ)
    (argv : List String) : Emitted × Nat :=
  if argv.length < 3 then (.usage usageMessage, 1)
  else
    let image_path := argv.getD 1 ""
    let languages := argv.getD 2 ""
    (.record (process_image_ocr engine elapsed image_path languages), 0)

/-- The keys, in insertion order, of the dictionary each emitted JSON object
serializes. -/
def jsonKeys : Emitted → List String
  | .usage _ => ["error"]
  | .record (.success _) =>
    ["text_extracted", "individual_texts", "confidence_scores",
     "processing_time", "total_detections"]
  | .record (.failure _) =>
    ["error", "text_extracted", "confidence_scores", "processing_time"]

/-- Hexadecimal digit, lower case, as in JSON `\uXXXX` escapes. -/
def hexDigit (n : ℕ) : Char :=
  if n < 10 then Char.ofNat (48 + n) else Char.ofNat (87 + n)

/-- Four-digit hexadecimal rendering used by JSON `\uXXXX` escapes. -/
def hex4 (n : ℕ) : List Char :=
  [hexDigit (n / 4096 % 16), hexDigit (n / 256 % 16),
   hexDigit (n / 16 % 16), hexDigit (n % 16)]

/-- How `json.dumps` renders one character inside a string: `"`, `\`, and
control characters are escaped; characters above `0x7e` are `\u`-escaped only
when `ensure_ascii` is true (the script passes `ensure_ascii=False`;
supplementary-plane surrogate pairs are elided as no claim touches them). -/
def escapeChar (ensure_ascii : Bool) (c : Char) : List Char :=
  if c = '"' then ['\\', '"']
  else if c = '\\' then ['\\', '\\']
  else if c = '\n' then ['\\', 'n']
  else if c = '\t' then ['\\', 't']
  else if c = '\r' then ['\\', 'r']
  else if c = '\x08' then ['\\', 'b']
  else if c = '\x0c' then ['\\', 'f']
  else if c.toNat < 0x20 then '\\' :: 'u' :: hex4 c.toNat
  else if ensure_ascii && decide (0x7f ≤ c.toNat) then '\\' :: 'u' :: hex4 c.toNat
  else [c]

/-- How `json.dumps` renders a string value. -/
def dumpString (ensure_ascii : Bool) (s : String) : String :=
  "\"" ++ String.mk (s.data.flatMap (escapeChar ensure_ascii)) ++ "\""

/-- A rational is a number written with at most `n` decimal places. -/
def isRounded (q : ℚ) (n : ℕ) : Prop :=
  ∃ k : ℤ, q = (k : ℚ) / 10 ^ n

/-- Sample detection used to instantiate theorems at concrete inputs. -/
def sampleDet : Detection Unit := ⟨(), "  Hello ", 987/1000⟩

/-- Second sample detection. -/
def sampleDet2 : Detection Unit := ⟨(), "world", 1/2⟩

/-- Engine oracle that succeeds with two detections. -/
def okEngine : Engine Unit := fun _ _ => .ok [sampleDet, sampleDet2]

/-- Engine oracle that raises. -/
def errEngine : Engine Unit := fun _ _ => .error "cannot open image"

/-- Engine oracle that succeeds with no detections. -/
def emptyEngine : Engine Unit := fun _ _ => .ok []

/-! ## Basic lemmas about the model -/

/-- On a success of the engine, `process_image_ocr` builds the success record
field by field. -/
lemma process_ok {B : Type} (engine : Engine B) (elapsed : ℚ)
    (ip lg : String) (results : List (Detection B))
    (he : engine (langList lg) ip = .ok results) :
    process_image_ocr engine elapsed ip lg =
      .success ⟨joinSep " " (results.map fun d => pyStrip d.text),
        results.map (fun d => pyStrip d.text),
        results.map (fun d => pyRound d.confidence 3),
        pyRound elapsed 2, results.length⟩ := by
  simp only [process_image_ocr]
  rw [he]

/-- On an engine exception, `process_image_ocr` builds the failure record. -/
lemma process_err {B : Type} (engine : Engine B) (elapsed : ℚ)
    (ip lg e : String) (he : engine (langList lg) ip = .error e) :
    process_image_ocr engine elapsed ip lg = .failure ⟨e, "", [], 0⟩ := by
  simp only [process_image_ocr]
  rw [he]

/-- `roundHalfEven` is the floor or the floor plus one, the latter only on a
fractional part of at least one half. -/
lemma roundHalfEven_mem (x : ℚ) :
    roundHalfEven x = ⌊x⌋ ∨
      (roundHalfEven x = ⌊x⌋ + 1 ∧ 1/2 ≤ x - (⌊x⌋ : ℚ)) := by
  unfold roundHalfEven
  split
  · exact Or.inl rfl
  · rename_i h1
    have hge : 1/2 ≤ x - (⌊x⌋ : ℚ) := not_lt.mp h1
    split
    · exact Or.inr ⟨rfl, hge⟩
    · split
      · exact Or.inl rfl
      · exact Or.inr ⟨rfl, hge⟩

/-- Rounding a nonnegative rational to an integer stays nonnegative. -/
lemma roundHalfEven_nonneg (x : ℚ) (hx : 0 ≤ x) : 0 ≤ roundHalfEven x := by
  have hf : 0 ≤ ⌊x⌋ := Int.floor_nonneg.mpr hx
  rcases roundHalfEven_mem x with h | ⟨h, -⟩
  · rw [h]; exact hf
  · rw [h]; omega

/-- Rounding respects an integer upper bound. -/
lemma roundHalfEven_le_of_le (x : ℚ) (M : ℤ) (h : x ≤ (M : ℚ)) :
    roundHalfEven x ≤ M := by
  rcases roundHalfEven_mem x with hr | ⟨hr, hf⟩
  · rw [hr]
    have hfl : ⌊x⌋ ≤ ⌊(M : ℚ)⌋ := Int.floor_le_floor h
    simpa using hfl
  · rw [hr]
    have h0 : (⌊x⌋ : ℚ) ≤ x := Int.floor_le x
    have h2 : (⌊x⌋ : ℚ) < (M : ℚ) := by linarith
    have h3 : ⌊x⌋ < M := by exact_mod_cast h2
    omega

/-- `pyRound` of a nonnegative value is nonnegative. -/
lemma pyRound_nonneg (x : ℚ) (n : ℕ) (hx : 0 ≤ x) : 0 ≤ pyRound x n := by
  unfold pyRound
  apply div_nonneg
  · exact_mod_cast roundHalfEven_nonneg _ (mul_nonneg hx (by positivity))
  · positivity

/-- `pyRound` of a value at most one is at most one. -/
lemma pyRound_le_one (x : ℚ) (n : ℕ) (hx : x ≤ 1) : pyRound x n ≤ 1 := by
  unfold pyRound
  rw [div_le_one (by positivity)]
  have h10 : (0 : ℚ) < 10 ^ n := by positivity
  have h : x * 10 ^ n ≤ ((10 ^ n : ℤ) : ℚ) := by
    push_cast
    nlinarith
  have hle := roundHalfEven_le_of_le (x * 10 ^ n) (10 ^ n) h
  exact_mod_cast hle

/-- `pyRound x n` has at most `n` decimal places. -/
lemma pyRound_isRounded (x : ℚ) (n : ℕ) : isRounded (pyRound x n) n :=
  ⟨roundHalfEven (x * 10 ^ n), rfl⟩

/-- A comma split always has at least one piece. -/
lemma splitOnComma_ne_nil (cs : List Char) : splitOnComma cs ≠ [] := by
  cases cs with
  | nil => simp [splitOnComma]
  | cons c rest =>
    simp only [splitOnComma]
    split <;> simp

/-- The language list handed to the engine is never empty. -/
lemma langList_ne_nil (s : String) : langList s ≠ [] := by
  unfold langList
  intro h
  exact splitOnComma_ne_nil _ (List.map_eq_nil_iff.mp h)

/-- With at least two positional arguments, `main` runs the OCR pipeline on
the first two and exits 0. -/
lemma main_long {B : Type} (engine : Engine B) (elapsed : ℚ)
    (p ip lg : String) (rest : List String) :
    main engine elapsed (p :: ip :: lg :: rest) =
      (.record (process_image_ocr engine elapsed ip lg), 0) := by
  unfold main
  rw [if_neg (by simp)]
  rfl

/-- A character that is not a quote, a backslash, or a control character is
rendered as itself when `ensure_ascii` is off. -/
lemma escapeChar_eq_self (c : Char) (h1 : c ≠ '"') (h2 : c ≠ '\\')
    (h3 : 0x20 ≤ c.toNat) : escapeChar false c = [c] := by
  have hn : c ≠ '\n' := by rintro rfl; exact absurd h3 (by decide)
  have ht : c ≠ '\t' := by rintro rfl; exact absurd h3 (by decide)
  have hr : c ≠ '\r' := by rintro rfl; exact absurd h3 (by decide)
  have hb : c ≠ '\x08' := by rintro rfl; exact absurd h3 (by decide)
  have hf : c ≠ '\x0c' := by rintro rfl; exact absurd h3 (by decide)
  have hlt : ¬ c.toNat < 0x20 := not_lt.mpr h3
  simp [escapeChar, h1, h2, hn, ht, hr, hb, hf, hlt]

/-- Escaping with `ensure_ascii` off keeps a string free of quotes,
backslashes and control characters unchanged. -/
lemma flatMap_escape_eq (l : List Char)
    (h : ∀ c ∈ l, c ≠ '"' ∧ c ≠ '\\' ∧ 0x20 ≤ c.toNat) :
    l.flatMap (escapeChar false) = l := by
  induction l with
  | nil => rfl
  | cons c cs ih =>
    have hc := h c (by simp)
    rw [List.flatMap_cons, escapeChar_eq_self c hc.1 hc.2.1 hc.2.2,
      ih fun x hx => h x (by simp [hx])]
    rfl

/-- With `ensure_ascii` off, a string with no character needing an escape is
serialized literally between quotes; in particular every non-ASCII character
appears unescaped. -/
lemma dumpString_plain (s : String)
    (h : ∀ c ∈ s.data, c ≠ '"' ∧ c ≠ '\\' ∧ 0x20 ≤ c.toNat) :
    dumpString false s = "\"" ++ s ++ "\"" := by
  unfold dumpString
  rw [flatMap_escape_eq s.data h]

/-! ## Claims -/

/-- Claim C1: whenever the engine returns a sequence of detections and no
exception is raised, the success record produced by `process_image_ocr` has
`individual_texts`, `confidence_scores` of equal length, both equal to
`total_detections`, and `text_extracted` is the join of `individual_texts`
with a single space. -/
theorem claim_C1 {B : Type} (engine : Engine B) (elapsed : ℚ)
    (image_path languages : String) (results : List (Detection B))
    (he : engine (langList languages) image_path = .ok results) :
    ∃ r : SuccessRecord,
      process_image_ocr engine elapsed image_path languages = .success r ∧
      r.individual_texts.length = r.confidence_scores.length ∧
      r.confidence_scores.length = r.total_detections ∧
      r.text_extracted = joinSep " " r.individual_texts := by
  refine ⟨_, process_ok engine elapsed image_path languages results he,
    ?_, ?_, rfl⟩
  · simp [List.length_map]
  · simp [List.length_map]

/-- Instantiation of C1 at a concrete engine returning two detections. -/
theorem claim_C1_witness :
    ∃ r : SuccessRecord,
      process_image_ocr okEngine 0 "img" "en" = .success r ∧
      r.individual_texts.length = r.confidence_scores.length ∧
      r.confidence_scores.length = r.total_detections ∧
      r.text_extracted = joinSep " " r.individual_texts :=
  claim_C1 okEngine 0 "img" "en" [sampleDet, sampleDet2] rfl

/-- Claim C2: every exception from engine initialization, invocation, or image
access is caught, and `process_image_ocr` returns the failure record whose
`error` field is exactly the exception's message, with empty `text_extracted`,
empty `confidence_scores`, and `processing_time` zero; no exception
propagates (the model is a total function into `OutputRecord`). -/
theorem claim_C2 {B : Type} (engine : Engine B) (elapsed : ℚ)
    (image_path languages e : String)
    (he : engine (langList languages) image_path = .error e) :
    process_image_ocr engine elapsed image_path languages =
      .failure ⟨e, "", [], 0⟩ :=
  process_err engine elapsed image_path languages e he

/-- Instantiation of C2 at a concrete raising engine. -/
theorem claim_C2_witness :
    process_image_ocr errEngine 0 "img" "en" =
      .failure ⟨"cannot open image", "", [], 0⟩ :=
  claim_C2 errEngine 0 "img" "en" "cannot open image" rfl

/-- Claim C3: with fewer than two positional arguments, `main` emits a JSON
object with an `error` key and no `text_extracted` key, exits with status 1,
and does not invoke OCR processing (the outcome is the same for every
engine). -/
theorem claim_C3 {B : Type} (engine : Engine B) (elapsed : ℚ)
    (argv : List String) (h : argv.length < 3) :
    main engine elapsed argv = (.usage usageMessage, 1) ∧
    "error" ∈ jsonKeys (main engine elapsed argv).1 ∧
    "text_extracted" ∉ jsonKeys (main engine elapsed argv).1 ∧
    ∀ (C : Type) (engine2 : Engine C),
      main engine2 elapsed argv = (.usage usageMessage, 1) := by
  have hm : ∀ (C : Type) (e2 : Engine C),
      main e2 elapsed argv = (.usage usageMessage, 1) := by
    intro C e2
    unfold main
    rw [if_pos h]
  refine ⟨hm B engine, ?_, ?_, hm⟩
  · rw [hm B engine]; decide
  · rw [hm B engine]; decide

/-- Instantiation of C3 at a one-element argument vector. -/
theorem claim_C3_witness :
    main okEngine 0 ["prog"] = (.usage usageMessage, 1) ∧
    "error" ∈ jsonKeys (main okEngine 0 ["prog"]).1 ∧
    "text_extracted" ∉ jsonKeys (main okEngine 0 ["prog"]).1 ∧
    ∀ (C : Type) (engine2 : Engine C),
      main engine2 0 ["prog"] = (.usage usageMessage, 1) :=
  claim_C3 okEngine 0 ["prog"] (by decide)

/-- Claim C4: on any engine success, for every index `i` the success record has
`individual_texts[i]` equal to the trimmed text of detection `i` and
`confidence_scores[i]` equal to its confidence rounded to 3 decimals, in
engine-returned order, and `text_extracted` is the single-space join of the
trimmed texts. -/
theorem claim_C4 {B : Type} (engine : Engine B) (elapsed : ℚ)
    (image_path languages : String) (results : List (Detection B))
    (he : engine (langList languages) image_path = .ok results) :
    ∃ r : SuccessRecord,
      process_image_ocr engine elapsed image_path languages = .success r ∧
      (∀ i : ℕ, r.individual_texts[i]? =
        results[i]?.map fun d => pyStrip d.text) ∧
      (∀ i : ℕ, r.confidence_scores[i]? =
        results[i]?.map fun d => pyRound d.confidence 3) ∧
      r.text_extracted = joinSep " " (results.map fun d => pyStrip d.text) := by
  refine ⟨_, process_ok engine elapsed image_path languages results he,
    ?_, ?_, rfl⟩
  · intro i; simp [List.getElem?_map]
  · intro i; simp [List.getElem?_map]

/-- Instantiation of C4 at a concrete engine returning two detections. -/
theorem claim_C4_witness :
    ∃ r : SuccessRecord,
      process_image_ocr okEngine 0 "img" "en" = .success r ∧
      (∀ i : ℕ, r.individual_texts[i]? =
        [sampleDet, sampleDet2][i]?.map fun d => pyStrip d.text) ∧
      (∀ i : ℕ, r.confidence_scores[i]? =
        [sampleDet, sampleDet2][i]?.map fun d => pyRound d.confidence 3) ∧
      r.text_extracted =
        joinSep " " ([sampleDet, sampleDet2].map fun d => pyStrip d.text) :=
  claim_C4 okEngine 0 "img" "en" [sampleDet, sampleDet2] rfl

/-- Claim C5: in both output shapes, `processing_time` is nonnegative and has
at most 2 decimal places, whenever the measured elapsed wall-clock time is
nonnegative. -/
theorem claim_C5 {B : Type} (engine : Engine B) (elapsed : ℚ)
    (image_path languages : String) (helapsed : 0 ≤ elapsed) :
    0 ≤ (process_image_ocr engine elapsed image_path languages).processing_time
    ∧ isRounded
      (process_image_ocr engine elapsed image_path languages).processing_time
      2 := by
  cases he : engine (langList languages) image_path with
  | ok results =>
    rw [process_ok engine elapsed image_path languages results he]
    exact ⟨pyRound_nonneg elapsed 2 helapsed, pyRound_isRounded elapsed 2⟩
  | error e =>
    rw [process_err engine elapsed image_path languages e he]
    exact ⟨le_refl 0, 0, by simp [OutputRecord.processing_time]⟩

/-- Instantiation of C5 at elapsed time zero. -/
theorem claim_C5_witness :
    0 ≤ (process_image_ocr okEngine 0 "img" "en").processing_time ∧
    isRounded (process_image_ocr okEngine 0 "img" "en").processing_time 2 :=
  claim_C5 okEngine 0 "img" "en" (le_refl 0)

/-- Claim C6: under the engine contract that each confidence is in `[0, 1]`,
every value in the success record's `confidence_scores` has at most 3 decimal
places and lies in `[0, 1]`. -/
theorem claim_C6 {B : Type} (engine : Engine B) (elapsed : ℚ)
    (image_path languages : String) (results : List (Detection B))
    (he : engine (langList languages) image_path = .ok results)
    (hconf : ∀ d ∈ results, 0 ≤ d.confidence ∧ d.confidence ≤ 1) :
    ∃ r : SuccessRecord,
      process_image_ocr engine elapsed image_path languages = .success r ∧
      ∀ q ∈ r.confidence_scores, 0 ≤ q ∧ q ≤ 1 ∧ isRounded q 3 := by
  refine ⟨_, process_ok engine elapsed image_path languages results he, ?_⟩
  intro q hq
  simp only [List.mem_map] at hq
  obtain ⟨d, hd, rfl⟩ := hq
  exact ⟨pyRound_nonneg _ _ (hconf d hd).1,
    pyRound_le_one _ _ (hconf d hd).2, pyRound_isRounded _ _⟩

/-- Instantiation of C6 at two detections with confidences 0.987 and 0.5. -/
theorem claim_C6_witness :
    ∃ r : SuccessRecord,
      process_image_ocr okEngine 0 "img" "en" = .success r ∧
      ∀ q ∈ r.confidence_scores, 0 ≤ q ∧ q ≤ 1 ∧ isRounded q 3 :=
  claim_C6 okEngine 0 "img" "en" [sampleDet, sampleDet2] rfl (by
    intro d hd
    simp only [List.mem_cons, List.mem_singleton] at hd
    rcases hd with rfl | rfl | h
    · constructor <;> norm_num [sampleDet]
    · constructor <;> norm_num [sampleDet2]
    · cases h)

/-- Claim C7: with at least two positional arguments the process emits exactly
one JSON record (success or failure shape) and exits 0; the only non-zero
exit status is the argument-validation failure; and with `ensure_ascii` off,
as `main` passes it, characters needing no JSON escape — in particular all
non-ASCII characters — are serialized literally. -/
theorem claim_C7 {B : Type} (engine : Engine B) (elapsed : ℚ)
    (argv : List String) (h : 3 ≤ argv.length) :
    (∃ rec : OutputRecord, main engine elapsed argv = (.record rec, 0)) ∧
    (∀ argv2 : List String, (main engine elapsed argv2).2 ≠ 0 →
      argv2.length < 3 ∧ (main engine elapsed argv2).2 = 1) ∧
    ∀ s : String, (∀ c ∈ s.data, c ≠ '"' ∧ c ≠ '\\' ∧ 0x20 ≤ c.toNat) →
      dumpString false s = "\"" ++ s ++ "\"" := by
  refine ⟨?_, ?_, fun s hs => dumpString_plain s hs⟩
  · unfold main
    rw [if_neg (not_lt.mpr h)]
    exact ⟨_, rfl⟩
  · intro argv2 hne
    by_cases h2 : argv2.length < 3
    · refine ⟨h2, ?_⟩
      unfold main
      rw [if_pos h2]
    · exfalso
      apply hne
      unfold main
      rw [if_neg h2]

/-- Instantiation of C7 at a three-element argument vector. -/
theorem claim_C7_witness :
    (∃ rec : OutputRecord, main okEngine 0 ["p", "i", "l"] = (.record rec, 0))
    ∧ (∀ argv2 : List String, (main okEngine 0 argv2).2 ≠ 0 →
      argv2.length < 3 ∧ (main okEngine 0 argv2).2 = 1) ∧
    ∀ s : String, (∀ c ∈ s.data, c ≠ '"' ∧ c ≠ '\\' ∧ 0x20 ≤ c.toNat) →
      dumpString false s = "\"" ++ s ++ "\"" :=
  claim_C7 okEngine 0 ["p", "i", "l"] (by decide)

/-- Claim C8: when the engine returns no detections and no exception, the
success record has `total_detections = 0`, empty `text_extracted`, empty
`individual_texts`, and the process exits with status 0. -/
theorem claim_C8 {B : Type} (engine : Engine B) (elapsed : ℚ)
    (p ip lg : String) (rest : List String)
    (he : engine (langList lg) ip = .ok []) :
    ∃ r : SuccessRecord,
      main engine elapsed (p :: ip :: lg :: rest) =
        (.record (.success r), 0) ∧
      r.total_detections = 0 ∧ r.text_extracted = "" ∧
      r.individual_texts = [] := by
  have hmain := main_long engine elapsed p ip lg rest
  rw [process_ok engine elapsed ip lg [] he] at hmain
  exact ⟨_, hmain, rfl, rfl, rfl⟩

/-- Instantiation of C8 at a concrete engine returning no detections. -/
theorem claim_C8_witness :
    ∃ r : SuccessRecord,
      main emptyEngine 0 ["prog", "img", "en"] =
        (.record (.success r), 0) ∧
      r.total_detections = 0 ∧ r.text_extracted = "" ∧
      r.individual_texts = [] :=
  claim_C8 emptyEngine 0 "prog" "img" "en" [] rfl

/-- Claim C9: positional arguments beyond the first two are ignored — two
argument vectors agreeing on the image path and languages produce the same
emitted record and exit status, for any program names and any extra
arguments, with the engine held fixed. -/
theorem claim_C9 {B : Type} (engine : Engine B) (elapsed : ℚ)
    (p q ip lg : String) (rest1 rest2 : List String) :
    main engine elapsed (p :: ip :: lg :: rest1) =
      main engine elapsed (q :: ip :: lg :: rest2) := by
  rw [main_long, main_long]

/-- Claim C10: the languages string reaches the engine exactly as its comma
split, with no validation: the outcome depends on the engine only through its
value at the split list, the split is never empty, the empty string splits to
`[""]`, and consecutive commas yield empty codes. -/
theorem claim_C10 {B : Type} (e1 e2 : Engine B) (elapsed : ℚ)
    (image_path languages : String)
    (h : e1 (langList languages) image_path =
      e2 (langList languages) image_path) :
    process_image_ocr e1 elapsed image_path languages =
      process_image_ocr e2 elapsed image_path languages ∧
    langList languages ≠ [] ∧
    langList "" = [""] ∧
    langList "en,,fr" = ["en", "", "fr"] := by
  refine ⟨?_, langList_ne_nil languages, by decide, by decide⟩
  simp only [process_image_ocr]
  rw [h]

/-- Instantiation of C10 at two engines agreeing on the split list. -/
theorem claim_C10_witness :
    process_image_ocr okEngine 0 "img" "en" =
      process_image_ocr okEngine 0 "img" "en" ∧
    langList "en" ≠ [] ∧
    langList "" = [""] ∧
    langList "en,,fr" = ["en", "", "fr"] :=
  claim_C10 okEngine okEngine 0 "img" "en" rfl

end OcrProcessor
